import Mathlib

/-!
Shallow embedding of the message-forwarding core of `tele-forward-bot`
(`src/main.go`): the config model and validation (`loadConfig`), the
per-update matching logic (`handleChannelPost` / `handleMessage`) and the
calls it makes to the `forwardMessage` primitive.  Go `int64` / `int` are
modelled as `Int` (the code only compares them for equality and list
membership, so overflow never matters); Go strings are Lean `String`s.
The topic-routing layer of the repository lives in `telegram_monitor.py`
(the Python client described by README.md and config.yaml.example), whose
source is not available here; that part is modelled from the spec and
clearly marked as such below.
-/

namespace TeleForward

/-- `Source` from main.go: one configured monitoring rule. -/
structure Source where
  type : String
  id : Int
  username : String
  userIDs : List Int
deriving DecidableEq

/-- `Config` from main.go. -/
structure Config where
  targetChannelID : Int
  sources : List Source
deriving DecidableEq

/-- The chat fields of `tgbotapi.Message` that main.go reads. -/
structure Chat where
  id : Int
  username : String
  type : String
deriving DecidableEq

/-- The fields of `tgbotapi.Message` that main.go reads.  `isCommand`
models the library predicate `Message.IsCommand()` (the spec's
is-a-command flag on `IncomingMessage`). -/
structure Message where
  chat : Chat
  fromID : Int
  fromUsername : String
  messageID : Int
  isCommand : Bool
deriving DecidableEq

/-- One incoming update as dispatched by `main`'s update loop: either a
channel post or an ordinary message (the bot only subscribes to these two
update kinds). -/
inductive Update where
  | message (m : Message)
  | channelPost (p : Message)
deriving DecidableEq

/-- One invocation of the `forwardMessage` primitive (its arguments). -/
structure ForwardCall where
  targetID : Int
  fromChatID : Int
  messageID : Int
deriving DecidableEq

/-- Per-character lowering, `Char.toLower` mapped over the string.  Models
the case folding of Go `strings.EqualFold` (exact on the ASCII usernames
the code compares). -/
def lowerStr (s : String) : String :=
  ⟨s.data.map Char.toLower⟩

/-- Go `strings.EqualFold` as used in main.go. -/
def eqFold (a b : String) : Bool :=
  lowerStr a == lowerStr b

/-- Drop one leading `@` from a character list. -/
def trimAtL : List Char → List Char
  | [] => []
  | c :: rest => if c = '@' then rest else c :: rest

/-- Go `strings.TrimPrefix(s, "@")`: drop one leading `@` when present. -/
def trimAt (s : String) : String :=
  ⟨trimAtL s.data⟩

/-- Does the string begin with `@`?  (Used only to state claims.) -/
def startsWithAt (s : String) : Bool :=
  match s.data with
  | [] => false
  | c :: _ => c == '@'

/-- The username comparison of `handleMessage` (main.go lines 210-217):
strip one `@` from each side, require the config side non-empty, then
compare case-insensitively. -/
def usernameMatch (msgUsername cfgUsername : String) : Bool :=
  let mu := trimAt msgUsername
  let cu := trimAt cfgUsername
  (cu != "") && eqFold mu cu

/-- The `isMatchingGroup` computation of `handleMessage` (main.go lines
206-218): ID equality when the source has a non-zero ID and it matches,
otherwise fall through to the username comparison. -/
def isMatchingGroup (s : Source) (m : Message) : Bool :=
  (s.id != 0 && m.chat.id == s.id) || usernameMatch m.chat.username s.username

/-- The loop of `handleChannelPost` (main.go lines 156-161): the first
`channel` source whose ID equals the post's chat ID (the loop `break`s
after forwarding, so later sources are not reached). -/
def channelScan (sources : List Source) (chatID : Int) : Option Source :=
  match sources with
  | [] => none
  | s :: rest =>
    if s.type == "channel" && chatID == s.id then some s
    else channelScan rest chatID

/-- The private-chat loop of `handleMessage` (main.go lines 185-195): the
first `user` source whose `user_ids` list contains the sender. -/
def userScan (sources : List Source) (fromID : Int) : Option Source :=
  match sources with
  | [] => none
  | s :: rest =>
    if s.type == "user" && decide (fromID ∈ s.userIDs) then some s
    else userScan rest fromID

/-- The group loop of `handleMessage` (main.go lines 202-237): the first
group/public_group source whose chat identity matches decides the outcome
— forward when the sender is in its `user_ids`, otherwise drop (the Go
code `return`s) without considering any later source. -/
def groupScan (sources : List Source) (m : Message) : Option Source :=
  match sources with
  | [] => none
  | s :: rest =>
    if s.type == "group" || s.type == "public_group" then
      if isMatchingGroup s m then
        if decide (m.fromID ∈ s.userIDs) then some s else none
      else groupScan rest m
    else groupScan rest m

/-- Which source (if any) `handleMessage` forwards for. -/
def matchMessage (cfg : Config) (m : Message) : Option Source :=
  if m.isCommand then none
  else if m.chat.type == "private" then userScan cfg.sources m.fromID
  else if m.chat.type == "group" || m.chat.type == "supergroup" then
    groupScan cfg.sources m
  else none

/-- Which source (if any) the update dispatcher forwards for. -/
def matchUpdate (cfg : Config) : Update → Option Source
  | .message m => matchMessage cfg m
  | .channelPost p => channelScan cfg.sources p.chat.id

/-- The `forwardMessage` calls made by `handleChannelPost`, in order:
direct transliteration of its loop with the `break` after the forward. -/
def channelScanF (sources : List Source) (target : Int) (p : Message) :
    List ForwardCall :=
  match sources with
  | [] => []
  | s :: rest =>
    if s.type == "channel" && p.chat.id == s.id then
      [⟨target, p.chat.id, p.messageID⟩]
    else channelScanF rest target p

/-- The `forwardMessage` calls made by the private-chat loop of
`handleMessage` (the Go code `return`s right after forwarding). -/
def userScanF (sources : List Source) (target : Int) (m : Message) :
    List ForwardCall :=
  match sources with
  | [] => []
  | s :: rest =>
    if s.type == "user" && decide (m.fromID ∈ s.userIDs) then
      [⟨target, m.chat.id, m.messageID⟩]
    else userScanF rest target m

/-- The `forwardMessage` calls made by the group loop of `handleMessage`
(forward-and-return on a filter hit, bare `return` on a filter miss). -/
def groupScanF (sources : List Source) (target : Int) (m : Message) :
    List ForwardCall :=
  match sources with
  | [] => []
  | s :: rest =>
    if s.type == "group" || s.type == "public_group" then
      if isMatchingGroup s m then
        if decide (m.fromID ∈ s.userIDs) then [⟨target, m.chat.id, m.messageID⟩]
        else []
      else groupScanF rest target m
    else groupScanF rest target m

/-- All `forwardMessage` calls `handleMessage` makes for one message.  A
command is answered by `handleCommand` (a plain send, not a forward) and
the handler returns. -/
def handleMessageF (cfg : Config) (m : Message) : List ForwardCall :=
  if m.isCommand then []
  else if m.chat.type == "private" then
    userScanF cfg.sources cfg.targetChannelID m
  else if m.chat.type == "group" || m.chat.type == "supergroup" then
    groupScanF cfg.sources cfg.targetChannelID m
  else []

/-- All `forwardMessage` calls made while dispatching one update. -/
def handleUpdateF (cfg : Config) : Update → List ForwardCall
  | .message m => handleMessageF cfg m
  | .channelPost p => channelScanF cfg.sources cfg.targetChannelID p

/-- The username cleanup of `loadConfig` (main.go lines 37-42): strip one
leading `@` from group/public_group usernames. -/
def cleanSource (s : Source) : Source :=
  if (s.type == "group" || s.type == "public_group") && s.username != "" then
    { s with username := trimAt s.username }
  else s

/-- The per-source validation of `loadConfig` (main.go lines 44-72),
collapsed to a Bool (the Go code returns a descriptive error for the
first offending index). -/
def validSource (s : Source) : Bool :=
  if s.type == "channel" then s.id != 0
  else if s.type == "group" then s.id != 0 && !s.userIDs.isEmpty
  else if s.type == "public_group" then s.username != "" && !s.userIDs.isEmpty
  else if s.type == "user" then !s.userIDs.isEmpty
  else false

/-- `loadConfig` after JSON decoding: clean the usernames, then validate
every source; `none` models the error return. -/
def loadConfig (c : Config) : Option Config :=
  let cleaned : Config := ⟨c.targetChannelID, c.sources.map cleanSource⟩
  if cleaned.sources.all validSource then some cleaned else none

/-- The matcher the spec describes for group/supergroup messages, written
from the spec's words for comparison with the source embedding: "the
first rule in R's order satisfying the eligibility+filter predicate, or
empty if none qualifies". -/
def specFirstSatisfying (sources : List Source) (m : Message) : Option Source :=
  sources.find? fun s =>
    (s.type == "group" || s.type == "public_group") &&
      isMatchingGroup s m && decide (m.fromID ∈ s.userIDs)

/-- Modelled from the spec: a sender filter, "optional set of user IDs
and/or usernames" (spec section 3).  The repository's client that implements
username sender-filters (`telegram_monitor.py`, the Python program described
by README.md, README.PYTHON.md and config.yaml.example) is not among the
available sources; the Go bot's `Source` carries only `user_ids`. -/
structure SenderFilter where
  userIds : List Int
  usernames : List String
deriving DecidableEq

/-- Modelled from the spec: a rule as in spec section 3, with the optional
`chat_id`, `target_topic` and sender filter that only the missing
`telegram_monitor.py` implements. -/
structure SpecRule where
  kind : String
  chatId : Option Int
  username : String
  senderFilter : Option SenderFilter
  targetTopic : Option Int
deriving DecidableEq

/-- Modelled from the spec: a rule set with the global default topic
(config key `topic_id`, spec section 6), implemented only by the missing
`telegram_monitor.py`. -/
structure SpecRuleSet where
  targetChannelId : Int
  defaultTopic : Option Int
  rules : List SpecRule
deriving DecidableEq

/-- Modelled from the spec: the Router of spec section 4.3 —
`targetTopicID` is the rule's `target_topic` if set, else the rule set's
`default_topic` if set, else none. -/
def resolveTarget (rs : SpecRuleSet) (r : SpecRule) : Int × Option Int :=
  (rs.targetChannelId,
    match r.targetTopic with
    | some t => some t
    | none => rs.defaultTopic)

/-- Modelled from the spec: the forward primitive's arguments,
`forward(targetChatID, sourceChatID, messageID, topicID?)` (spec
section 6); the topic parameter exists only in the missing
`telegram_monitor.py`. -/
structure SpecForwardCall where
  targetChatId : Int
  sourceChatId : Int
  messageId : Int
  topicId : Option Int
deriving DecidableEq

/-- Modelled from the spec: the Dispatcher's forward invocation for a
matched rule (spec section 4.4) — the Router's result is passed to the
forward primitive. -/
def specDispatchForward (rs : SpecRuleSet) (r : SpecRule) (m : Message) :
    SpecForwardCall :=
  ⟨(resolveTarget rs r).1, m.chat.id, m.messageID, (resolveTarget rs r).2⟩

/-- Modelled from the spec: chat-identity eligibility of spec section 4.2
step 3 — `chat_id` equality when set, else the case-insensitive,
`@`-stripped username comparison (empty never matches). -/
def specEligible (r : SpecRule) (m : Message) : Bool :=
  match r.chatId with
  | some cid => m.chat.id == cid
  | none => usernameMatch m.chat.username r.username

/-- Modelled from the spec: the per-rule match predicate of spec section
4.2 steps 4-5 — an eligible rule with no filter matches unconditionally;
with a filter it matches when the sender's id is in the filter's id set or
the sender's username is case-insensitively in its username set. -/
def specRuleMatches (r : SpecRule) (m : Message) : Bool :=
  specEligible r m &&
    match r.senderFilter with
    | none => true
    | some f =>
      decide (m.fromID ∈ f.userIds) ||
        f.usernames.any fun u => eqFold u m.fromUsername

/-- Does the string begin with two `@`?  (Used only to state claims.) -/
def startsWithDoubleAt (s : String) : Bool :=
  match s.data with
  | c1 :: c2 :: _ => c1 == '@' && c2 == '@'
  | _ => false

/-- The message carried by an update. -/
def Update.msgOf : Update → Message
  | .message m => m
  | .channelPost p => p

/-- Two rules for the same group chat with different sender filters. -/
def srcC1a : Source := ⟨"group", 10, "", [1]⟩

/-- Second rule for the chat of `srcC1a`, whose filter holds sender 2. -/
def srcC1b : Source := ⟨"group", 10, "", [2]⟩

/-- Config whose two group rules target the same chat. -/
def cfgC1 : Config := ⟨99, [srcC1a, srcC1b]⟩

/-- A group message from chat 10 sent by user 2. -/
def msgC1 : Message := ⟨⟨10, "", "group"⟩, 2, "", 5, false⟩

/-- A rule with both a chat ID and a username set. -/
def srcC4 : Source := ⟨"group", 5, "foo", [1]⟩

/-- Config holding only `srcC4`. -/
def cfgC4 : Config := ⟨99, [srcC4]⟩

/-- A message from a different chat ID whose chat username matches
`srcC4`'s username. -/
def msgC4 : Message := ⟨⟨6, "foo", "group"⟩, 1, "", 11, false⟩

/-- A raw config with a source of the spec's kind `private_group`. -/
def cfgC5 : Config := ⟨1, [⟨"private_group", 5, "", [1]⟩]⟩

/-- Config monitoring channel -100. -/
def cfgC6 : Config := ⟨50, [⟨"channel", -100, "", []⟩]⟩

/-- A channel post whose is-a-command flag is set. -/
def postC6 : Message := ⟨⟨-100, "", "channel"⟩, 3, "", 7, true⟩

/-- Config with a group rule that would forward sender 1 from chat 10. -/
def cfgC6w : Config := ⟨50, [⟨"group", 10, "", [1]⟩]⟩

/-- A command message in the monitored group of `cfgC6w` from sender 1. -/
def msgC6w : Message := ⟨⟨10, "", "group"⟩, 1, "", 9, true⟩

/-- Config with one `user` rule monitoring sender 7. -/
def cfgC7 : Config := ⟨1, [⟨"user", 0, "", [7]⟩]⟩

/-- A private message from sender 7. -/
def msgC7 : Message := ⟨⟨7, "", "private"⟩, 7, "", 2, false⟩

/-- A raw config whose group source username has two leading `@`. -/
def cfgC10 : Config := ⟨1, [⟨"group", 5, "@@grp", [1]⟩]⟩

/-- What `loadConfig` returns on `cfgC10`: one `@` was stripped, one
remains. -/
def loadedC10 : Config := ⟨1, [⟨"group", 5, "@grp", [1]⟩]⟩

/-- A spec rule whose `target_topic` is topic 2. -/
def ruleC2 : SpecRule := ⟨"channel", some (-100), "", none, some 2⟩

/-- A spec rule set with global default topic 1. -/
def rsC2 : SpecRuleSet := ⟨-200, some 1, [ruleC2]⟩

/-- A channel post from the chat of `ruleC2`. -/
def msgC2 : Message := ⟨⟨-100, "", "channel"⟩, 0, "", 4, false⟩

/-- A sender filter holding user id 42 and username Alice. -/
def fltC3 : SenderFilter := ⟨[42], ["Alice"]⟩

/-- A spec rule for a public group with the sender filter `fltC3`. -/
def ruleC3 : SpecRule := ⟨"public_group", none, "grp", some fltC3, none⟩

/-- A supergroup message from that group whose sender id is not in the
filter but whose username matches case-insensitively. -/
def msgC3 : Message := ⟨⟨1, "grp", "supergroup"⟩, 99, "alice", 5, false⟩

theorem char_toNat_ofNat_valid {n : Nat} (h : n.isValidChar) :
    (Char.ofNat n).toNat = n := by
  simp [Char.ofNat, dif_pos h, Char.ofNatAux, Char.toNat, UInt32.toNat]

theorem toLower_eq_at_iff (c : Char) : c.toLower = '@' ↔ c = '@' := by
  constructor
  · intro h
    by_cases hc : c.toNat ≥ 65 ∧ c.toNat ≤ 90
    · exfalso
      have h1 : c.toLower = Char.ofNat (c.toNat + 32) := by
        simp [Char.toLower, hc]
      have h2 : (Char.ofNat (c.toNat + 32)).toNat = c.toNat + 32 := by
        apply char_toNat_ofNat_valid
        left
        omega
      have h3 : ('@' : Char).toNat = 64 := by decide
      rw [h1] at h
      have h4 := congrArg Char.toNat h
      rw [h2, h3] at h4
      omega
    · have h1 : c.toLower = c := by
        simp [Char.toLower]
        intro a b
        exact absurd ⟨a, b⟩ hc
      rw [h1] at h
      exact h
  · intro h
    subst h
    decide

theorem map_toLower_trimAtL {l l' : List Char}
    (h : l.map Char.toLower = l'.map Char.toLower) :
    (trimAtL l).map Char.toLower = (trimAtL l').map Char.toLower := by
  cases l with
  | nil =>
    cases l' with
    | nil => rfl
    | cons c r => simp at h
  | cons c r =>
    cases l' with
    | nil => simp at h
    | cons c' r' =>
      simp only [List.map_cons, List.cons.injEq] at h
      obtain ⟨hc, hr⟩ := h
      by_cases hat : c = '@'
      · have hat' : c' = '@' := by
          rw [← toLower_eq_at_iff, ← hc, hat]
          decide
        simp [trimAtL, hat, hat', hr]
      · have hat' : c' ≠ '@' := by
          intro hx
          apply hat
          rw [← toLower_eq_at_iff, hc, hx]
          decide
        simp [trimAtL, hat, hat', hc, hr]

theorem lowerStr_trimAt {a a' : String} (h : lowerStr a = lowerStr a') :
    lowerStr (trimAt a) = lowerStr (trimAt a') := by
  have hd : a.data.map Char.toLower = a'.data.map Char.toLower :=
    congrArg String.data h
  have := map_toLower_trimAtL hd
  exact congrArg String.mk this

theorem lowerStr_eq_empty {s : String} : lowerStr s = "" ↔ s = "" := by
  constructor
  · intro h
    have hd : s.data.map Char.toLower = [] := congrArg String.data h
    have : s.data = [] := List.map_eq_nil_iff.mp hd
    exact congrArg String.mk this
  · intro h
    rw [h]
    rfl

theorem trimAt_empty_congr {b b' : String} (h : lowerStr b = lowerStr b') :
    trimAt b = "" ↔ trimAt b' = "" := by
  rw [← lowerStr_eq_empty, ← lowerStr_eq_empty (s := trimAt b'),
    lowerStr_trimAt h]

theorem usernameMatch_eq_true (a b : String) :
    usernameMatch a b = true ↔
      trimAt b ≠ "" ∧ lowerStr (trimAt a) = lowerStr (trimAt b) := by
  simp [usernameMatch, eqFold]

theorem trimAt_append_at (a : String) : trimAt ("@" ++ a) = a := by
  have hd : ("@" ++ a).data = '@' :: a.data := by
    simp [String.data_append]
  simp [trimAt, hd, trimAtL]

theorem trimAt_of_not_at {a : String} (h : startsWithAt a = false) :
    trimAt a = a := by
  obtain ⟨d⟩ := a
  cases d with
  | nil => rfl
  | cons c r =>
    simp only [startsWithAt, beq_eq_false_iff_ne, ne_eq] at h
    simp [trimAt, trimAtL, h]

/-- C8: the username comparison is invariant under letter case on either
side and under one leading `@` on either side, and an empty username on
either side never yields a match. -/
theorem c8_username_comparison_invariants :
    (∀ a a' b : String, lowerStr a = lowerStr a' →
        usernameMatch a b = usernameMatch a' b) ∧
    (∀ a b b' : String, lowerStr b = lowerStr b' →
        usernameMatch a b = usernameMatch a b') ∧
    (∀ a b : String, startsWithAt a = false →
        usernameMatch ("@" ++ a) b = usernameMatch a b) ∧
    (∀ a b : String, startsWithAt b = false →
        usernameMatch a ("@" ++ b) = usernameMatch a b) ∧
    (∀ b : String, usernameMatch "" b = false ∧ usernameMatch b "" = false) := by
  refine ⟨?_, ?_, ?_, ?_, ?_⟩
  · intro a a' b h
    rw [Bool.eq_iff_iff, usernameMatch_eq_true, usernameMatch_eq_true,
      lowerStr_trimAt h]
  · intro a b b' h
    rw [Bool.eq_iff_iff, usernameMatch_eq_true, usernameMatch_eq_true,
      lowerStr_trimAt h]
    constructor
    · rintro ⟨h1, h2⟩
      exact ⟨fun hx => h1 ((trimAt_empty_congr h).mpr hx), h2⟩
    · rintro ⟨h1, h2⟩
      exact ⟨fun hx => h1 ((trimAt_empty_congr h).mp hx), h2⟩
  · intro a b h
    rw [Bool.eq_iff_iff, usernameMatch_eq_true, usernameMatch_eq_true,
      trimAt_append_at, trimAt_of_not_at h]
  · intro a b h
    rw [Bool.eq_iff_iff, usernameMatch_eq_true, usernameMatch_eq_true,
      trimAt_append_at, trimAt_of_not_at h]
  · intro b
    constructor
    · cases hb : usernameMatch "" b with
      | false => rfl
      | true =>
        exfalso
        obtain ⟨hne, heq⟩ := (usernameMatch_eq_true "" b).mp hb
        apply hne
        rw [← lowerStr_eq_empty, ← heq]
        rfl
    · rfl

/-- C8 witness: `"Foo"`, `"foo"`, `"@foo"` all compare equal against a
fixed right side, and the empty username matches nothing. -/
theorem c8_username_comparison_invariants_witness :
    usernameMatch "Foo" "foo" = usernameMatch "foo" "foo" ∧
    usernameMatch "@foo" "foo" = usernameMatch "foo" "foo" ∧
    usernameMatch "foo" "@foo" = usernameMatch "foo" "foo" ∧
    usernameMatch "" "foo" = false ∧ usernameMatch "foo" "" = false :=
  ⟨c8_username_comparison_invariants.1 "Foo" "foo" "foo" (by decide),
   c8_username_comparison_invariants.2.2.1 "foo" "foo" (by decide),
   c8_username_comparison_invariants.2.2.2.1 "foo" "foo" (by decide),
   (c8_username_comparison_invariants.2.2.2.2 "foo").1,
   (c8_username_comparison_invariants.2.2.2.2 "foo").2⟩

/-- C4 counterexample: a rule with both chat ID and username set becomes
eligible via its username for a message whose chat ID differs from the
rule's, and the matcher forwards for it — the claimed chat-ID precedence
does not hold. -/
theorem c4_counterexample :
    srcC4.id ≠ 0 ∧ msgC4.chat.id ≠ srcC4.id ∧
    isMatchingGroup srcC4 msgC4 = true ∧
    matchMessage cfgC4 msgC4 = some srcC4 := by
  refine ⟨by decide, by decide, by decide, by decide⟩

/-- C4 amended: chat-identity eligibility is chat-ID equality (when the
ID is set) OR the case-insensitive username comparison; a non-matching
chat ID falls through to the username check rather than blocking it. -/
theorem c4_eligibility_characterization (s : Source) (m : Message) :
    isMatchingGroup s m = true ↔
      (s.id ≠ 0 ∧ m.chat.id = s.id) ∨
        usernameMatch m.chat.username s.username = true := by
  simp [isMatchingGroup]

/-- C5 counterexample: `loadConfig` rejects a source of the spec's kind
`private_group` even though its chat ID is present. -/
theorem c5_counterexample :
    cfgC5.sources.map Source.type = ["private_group"] ∧
    cfgC5.sources.map Source.id = [(5 : Int)] ∧
    loadConfig cfgC5 = none := by
  refine ⟨by decide, by decide, by decide⟩

theorem validSource_cleanSource (s : Source) :
    validSource (cleanSource s) = true ↔
      (s.type = "channel" ∧ s.id ≠ 0) ∨
      (s.type = "group" ∧ s.id ≠ 0 ∧ s.userIDs ≠ []) ∨
      (s.type = "public_group" ∧ trimAt s.username ≠ "" ∧ s.userIDs ≠ []) ∨
      (s.type = "user" ∧ s.userIDs ≠ []) := by
  by_cases h1 : s.type = "channel"
  · simp [cleanSource, validSource, h1]
  · by_cases h2 : s.type = "group"
    · by_cases hu : s.username = ""
      · simp [cleanSource, validSource, h1, h2, hu]
      · simp [cleanSource, validSource, h1, h2, hu]
    · by_cases h3 : s.type = "public_group"
      · by_cases hu : s.username = ""
        · simp [cleanSource, validSource, h1, h2, h3, hu, trimAt, trimAtL]
        · simp [cleanSource, validSource, h1, h2, h3, hu]
      · by_cases h4 : s.type = "user"
        · simp [cleanSource, validSource, h1, h2, h3, h4]
        · simp [cleanSource, validSource, h1, h2, h3, h4]

/-- C5 amended: `loadConfig` accepts exactly the configs whose every
source is a `channel` with non-zero ID, a `group` with non-zero ID and
non-empty `user_ids`, a `public_group` with a username that is non-empty
after stripping one `@` and non-empty `user_ids`, or a `user` with
non-empty `user_ids`; every other kind — including the spec's
`private_group` — is rejected. -/
theorem c5_validation_characterization (c : Config) :
    (loadConfig c).isSome = true ↔
      ∀ s ∈ c.sources,
        (s.type = "channel" ∧ s.id ≠ 0) ∨
        (s.type = "group" ∧ s.id ≠ 0 ∧ s.userIDs ≠ []) ∨
        (s.type = "public_group" ∧ trimAt s.username ≠ "" ∧ s.userIDs ≠ []) ∨
        (s.type = "user" ∧ s.userIDs ≠ []) := by
  have hall : (c.sources.map cleanSource).all validSource = true ↔
      ∀ s ∈ c.sources, validSource (cleanSource s) = true := by
    rw [List.all_map]
    exact List.all_eq_true
  constructor
  · intro h s hs
    by_cases hc : (c.sources.map cleanSource).all validSource = true
    · exact (validSource_cleanSource s).mp (hall.mp hc s hs)
    · exfalso
      rw [loadConfig] at h
      rw [Bool.not_eq_true] at hc
      simp [hc] at h
  · intro h
    rw [loadConfig]
    have : (c.sources.map cleanSource).all validSource = true :=
      hall.mpr fun s hs => (validSource_cleanSource s).mpr (h s hs)
    simp [this]

theorem groupScan_eq_find (sources : List Source) (m : Message) :
    groupScan sources m =
      match sources.find? (fun s =>
          (s.type == "group" || s.type == "public_group") &&
            isMatchingGroup s m) with
      | none => none
      | some s => if m.fromID ∈ s.userIDs then some s else none := by
  induction sources with
  | nil => rfl
  | cons s rest ih =>
    by_cases hk : (s.type == "group" || s.type == "public_group") = true
    · by_cases hg : isMatchingGroup s m = true
      · rw [List.find?_cons_of_pos _ (by simp [hk, hg])]
        simp only [groupScan, hk, hg, if_true]
        simp [decide_eq_true_eq]
      · rw [List.find?_cons_of_neg _ (by simp [hg])]
        rw [Bool.not_eq_true] at hg
        simp only [groupScan, hk, hg, if_true, if_false]
        exact ih
    · rw [List.find?_cons_of_neg _ (by simp [hk])]
      rw [Bool.not_eq_true] at hk
      simp only [groupScan, hk, if_false]
      exact ih

/-- C1 counterexample: two group rules watch the same chat; the first
rule's filter rejects sender 2, the second's accepts it.  The first rule
satisfying the spec's eligibility+filter predicate is the second rule,
but `handleMessage` drops the message without consulting it. -/
theorem c1_counterexample :
    msgC1.isCommand = false ∧ msgC1.chat.type = "group" ∧
    specFirstSatisfying cfgC1.sources msgC1 = some srcC1b ∧
    matchMessage cfgC1 msgC1 = none := by
  refine ⟨by decide, by decide, by decide, by decide⟩

/-- C1 amended: for a non-command group/supergroup message the matcher
finds the first chat-identity-eligible group-kind rule; that rule alone
decides the outcome — forward when its sender filter accepts, otherwise
drop with no later rule considered (and drop when no rule is eligible). -/
theorem c1_first_eligible_rule_decides (cfg : Config) (m : Message)
    (h1 : m.isCommand = false)
    (h2 : m.chat.type = "group" ∨ m.chat.type = "supergroup") :
    matchMessage cfg m =
      match cfg.sources.find? (fun s =>
          (s.type == "group" || s.type == "public_group") &&
            isMatchingGroup s m) with
      | none => none
      | some s => if m.fromID ∈ s.userIDs then some s else none := by
  rw [← groupScan_eq_find]
  have hp : (m.chat.type == "private") = false := by
    rcases h2 with h | h <;> rw [h] <;> decide
  have hg : (m.chat.type == "group" || m.chat.type == "supergroup") = true := by
    rcases h2 with h | h <;> rw [h] <;> decide
  simp [matchMessage, h1, hp, hg]

/-- C1 witness: the amended statement evaluated on the two-rule config. -/
theorem c1_first_eligible_rule_decides_witness :
    matchMessage cfgC1 msgC1 =
      match cfgC1.sources.find? (fun s =>
          (s.type == "group" || s.type == "public_group") &&
            isMatchingGroup s msgC1) with
      | none => none
      | some s => if msgC1.fromID ∈ s.userIDs then some s else none :=
  c1_first_eligible_rule_decides cfgC1 msgC1 rfl (Or.inl rfl)

theorem channelScan_some {sources : List Source} {cid : Int} {s : Source}
    (h : channelScan sources cid = some s) :
    s.type = "channel" ∧ cid = s.id := by
  induction sources with
  | nil => simp [channelScan] at h
  | cons t rest ih =>
    rw [channelScan] at h
    by_cases hc : (t.type == "channel" && cid == t.id) = true
    · rw [if_pos hc] at h
      obtain rfl : t = s := Option.some.inj h
      simpa using hc
    · rw [if_neg hc] at h
      exact ih h

theorem userScan_some {sources : List Source} {fid : Int} {s : Source}
    (h : userScan sources fid = some s) :
    s.type = "user" ∧ fid ∈ s.userIDs := by
  induction sources with
  | nil => simp [userScan] at h
  | cons t rest ih =>
    rw [userScan] at h
    by_cases hc : (t.type == "user" && decide (fid ∈ t.userIDs)) = true
    · rw [if_pos hc] at h
      obtain rfl : t = s := Option.some.inj h
      simpa using hc
    · rw [if_neg hc] at h
      exact ih h

theorem userScan_isSome {sources : List Source} {fid : Int} {s : Source}
    (hs : s ∈ sources) (ht : s.type = "user") (hm : fid ∈ s.userIDs) :
    (userScan sources fid).isSome = true := by
  induction sources with
  | nil => simp at hs
  | cons t rest ih =>
    rw [userScan]
    by_cases hc : (t.type == "user" && decide (fid ∈ t.userIDs)) = true
    · rw [if_pos hc]
      rfl
    · rw [if_neg hc]
      rcases List.mem_cons.mp hs with rfl | hs'
      · exfalso
        exact hc (by simp [ht, hm])
      · exact ih hs'

theorem groupScan_some {sources : List Source} {m : Message} {s : Source}
    (h : groupScan sources m = some s) :
    s.type = "group" ∨ s.type = "public_group" := by
  induction sources with
  | nil => simp [groupScan] at h
  | cons t rest ih =>
    rw [groupScan] at h
    by_cases hk : (t.type == "group" || t.type == "public_group") = true
    · rw [if_pos hk] at h
      by_cases hg : isMatchingGroup t m = true
      · rw [if_pos hg] at h
        by_cases hu : decide (m.fromID ∈ t.userIDs) = true
        · rw [if_pos hu] at h
          obtain rfl : t = s := Option.some.inj h
          simpa using hk
        · rw [if_neg hu] at h
          exact absurd h (by simp)
      · rw [if_neg hg] at h
        exact ih h
    · rw [if_neg hk] at h
      exact ih h

/-- C6 counterexample: a channel post whose is-a-command flag is set is
still matched against the channel rules and forwarded — `handleChannelPost`
never consults the command check. -/
theorem c6_counterexample :
    postC6.isCommand = true ∧
    matchUpdate cfgC6 (Update.channelPost postC6) = some ⟨"channel", -100, "", []⟩ ∧
    handleUpdateF cfgC6 (Update.channelPost postC6) = [⟨50, -100, 7⟩] := by
  refine ⟨by decide, by decide, by decide⟩

/-- C6 amended: the command short-circuit holds for message updates
(private, group and supergroup chats); channel posts arrive through the
separate channel-post handler, which does not check the command flag. -/
theorem c6_message_commands_short_circuit (cfg : Config) (m : Message)
    (h : m.isCommand = true) :
    matchUpdate cfg (Update.message m) = none ∧
    handleUpdateF cfg (Update.message m) = [] := by
  constructor
  · simp only [matchUpdate]
    rw [matchMessage, if_pos h]
  · simp only [handleUpdateF]
    rw [handleMessageF, if_pos h]

/-- C6 witness: a command message in a monitored group from a monitored
sender is neither matched nor forwarded. -/
theorem c6_message_commands_short_circuit_witness :
    msgC6w.isCommand = true ∧
    matchUpdate cfgC6w (Update.message msgC6w) = none ∧
    handleUpdateF cfgC6w (Update.message msgC6w) = [] :=
  ⟨rfl, c6_message_commands_short_circuit cfgC6w msgC6w rfl⟩

/-- C7: a `user`-kind rule is selected only for private-chat messages
whose sender id is in its `user_ids`; for a private chat the selected
rule is always a `user` rule with the sender in its list; and when a
`user` rule listing the sender exists, a private non-command message is
matched. -/
theorem c7_user_rules_private_only (cfg : Config) (u : Update) :
    (∀ s : Source, matchUpdate cfg u = some s → s.type = "user" →
        (Update.msgOf u).chat.type = "private" ∧
          (Update.msgOf u).fromID ∈ s.userIDs) ∧
    (∀ m : Message, u = Update.message m → m.chat.type = "private" →
        ∀ s : Source, matchUpdate cfg u = some s →
          s.type = "user" ∧ m.fromID ∈ s.userIDs) ∧
    (∀ m : Message, u = Update.message m → m.chat.type = "private" →
        m.isCommand = false →
        ∀ s ∈ cfg.sources, s.type = "user" → m.fromID ∈ s.userIDs →
          (matchUpdate cfg u).isSome = true) := by
  refine ⟨?_, ?_, ?_⟩
  · intro s h hty
    cases u with
    | channelPost p =>
      simp only [matchUpdate] at h
      have hc := (channelScan_some h).1
      rw [hty] at hc
      simp at hc
    | message m =>
      simp only [matchUpdate] at h
      rw [matchMessage] at h
      by_cases h1 : m.isCommand = true
      · rw [if_pos h1] at h
        exact absurd h (by simp)
      · rw [if_neg h1] at h
        by_cases h2 : (m.chat.type == "private") = true
        · rw [if_pos h2] at h
          exact ⟨by simpa using h2, (userScan_some h).2⟩
        · rw [if_neg h2] at h
          by_cases h3 : (m.chat.type == "group" || m.chat.type == "supergroup") = true
          · rw [if_pos h3] at h
            rcases groupScan_some h with hg | hg <;>
              · rw [hty] at hg
                simp at hg
          · rw [if_neg h3] at h
            exact absurd h (by simp)
  · intro m hm hpriv s h
    subst hm
    simp only [matchUpdate] at h
    rw [matchMessage] at h
    by_cases h1 : m.isCommand = true
    · rw [if_pos h1] at h
      exact absurd h (by simp)
    · rw [if_neg h1] at h
      rw [if_pos (by simp [hpriv])] at h
      exact userScan_some h
  · intro m hm hpriv hcmd s hs hty hmem
    subst hm
    simp only [matchUpdate]
    rw [matchMessage, if_neg (by simp [hcmd]), if_pos (by simp [hpriv])]
    exact userScan_isSome hs hty hmem

/-- C7 witness: the private message from monitored sender 7 is matched. -/
theorem c7_user_rules_private_only_witness :
    (matchUpdate cfgC7 (Update.message msgC7)).isSome = true :=
  (c7_user_rules_private_only cfgC7 (Update.message msgC7)).2.2 msgC7 rfl rfl
    rfl ⟨"user", 0, "", [7]⟩ (by decide) rfl (by decide)

theorem channelScanF_length (sources : List Source) (t : Int) (p : Message) :
    (channelScanF sources t p).length ≤ 1 := by
  induction sources with
  | nil => simp [channelScanF]
  | cons s rest ih =>
    rw [channelScanF]
    by_cases hc : (s.type == "channel" && p.chat.id == s.id) = true
    · rw [if_pos hc]
      simp
    · rw [if_neg hc]
      exact ih

theorem userScanF_length (sources : List Source) (t : Int) (m : Message) :
    (userScanF sources t m).length ≤ 1 := by
  induction sources with
  | nil => simp [userScanF]
  | cons s rest ih =>
    rw [userScanF]
    by_cases hc : (s.type == "user" && decide (m.fromID ∈ s.userIDs)) = true
    · rw [if_pos hc]
      simp
    · rw [if_neg hc]
      exact ih

theorem groupScanF_length (sources : List Source) (t : Int) (m : Message) :
    (groupScanF sources t m).length ≤ 1 := by
  induction sources with
  | nil => simp [groupScanF]
  | cons s rest ih =>
    rw [groupScanF]
    by_cases hk : (s.type == "group" || s.type == "public_group") = true
    · rw [if_pos hk]
      by_cases hg : isMatchingGroup s m = true
      · rw [if_pos hg]
        by_cases hu : decide (m.fromID ∈ s.userIDs) = true
        · rw [if_pos hu]
          simp
        · rw [if_neg hu]
          simp
      · rw [if_neg hg]
        exact ih
    · rw [if_neg hk]
      exact ih

/-- C9: dispatching one update calls the forward primitive at most once —
every handler path either forwards and stops or drops the message. -/
theorem c9_at_most_one_forward (cfg : Config) (u : Update) :
    (handleUpdateF cfg u).length ≤ 1 := by
  cases u with
  | channelPost p => exact channelScanF_length cfg.sources cfg.targetChannelID p
  | message m =>
    simp only [handleUpdateF]
    rw [handleMessageF]
    by_cases h1 : m.isCommand = true
    · rw [if_pos h1]
      simp
    · rw [if_neg h1]
      by_cases h2 : (m.chat.type == "private") = true
      · rw [if_pos h2]
        exact userScanF_length cfg.sources cfg.targetChannelID m
      · rw [if_neg h2]
        by_cases h3 : (m.chat.type == "group" || m.chat.type == "supergroup") = true
        · rw [if_pos h3]
          exact groupScanF_length cfg.sources cfg.targetChannelID m
        · rw [if_neg h3]
          simp

/-- C10 counterexample: a group source configured with username `@@grp`
loads successfully, and the loaded username `@grp` still begins with `@`
— `loadConfig` strips only one leading `@`. -/
theorem c10_counterexample :
    loadConfig cfgC10 = some loadedC10 ∧
    loadedC10.sources.map Source.username = ["@grp"] ∧
    startsWithAt "@grp" = true := by
  refine ⟨by decide, by decide, by decide⟩

theorem validSource_eq_true {s : Source} :
    validSource s = true ↔
      (s.type = "channel" ∧ s.id ≠ 0) ∨
      (s.type = "group" ∧ s.id ≠ 0 ∧ s.userIDs ≠ []) ∨
      (s.type = "public_group" ∧ s.username ≠ "" ∧ s.userIDs ≠ []) ∨
      (s.type = "user" ∧ s.userIDs ≠ []) := by
  by_cases h1 : s.type = "channel"
  · simp [validSource, h1]
  · by_cases h2 : s.type = "group"
    · simp [validSource, h1, h2]
    · by_cases h3 : s.type = "public_group"
      · simp [validSource, h1, h2, h3]
      · by_cases h4 : s.type = "user"
        · simp [validSource, h1, h2, h3, h4]
        · simp [validSource, h1, h2, h3, h4]

theorem validSource_invariants {s : Source} (h : validSource s = true) :
    (s.type = "channel" ∨ s.type = "group" ∨ s.type = "public_group" ∨
      s.type = "user") ∧
    ((s.type = "channel" ∨ s.type = "group") → s.id ≠ 0) ∧
    ((s.type = "group" ∨ s.type = "public_group" ∨ s.type = "user") →
      s.userIDs ≠ []) ∧
    (s.type = "public_group" → s.username ≠ "") := by
  rcases validSource_eq_true.mp h with ⟨ht, hid⟩ | ⟨ht, hid, hu⟩ |
    ⟨ht, hun, hu⟩ | ⟨ht, hu⟩
  · refine ⟨Or.inl ht, fun _ => hid, fun hc => ?_, fun hc => ?_⟩
    · rw [ht] at hc
      rcases hc with hc | hc | hc <;> simp at hc
    · rw [ht] at hc
      simp at hc
  · refine ⟨Or.inr (Or.inl ht), fun _ => hid, fun _ => hu, fun hc => ?_⟩
    rw [ht] at hc
    simp at hc
  · refine ⟨Or.inr (Or.inr (Or.inl ht)), fun hc => ?_, fun _ => hu,
      fun _ => hun⟩
    rw [ht] at hc
    rcases hc with hc | hc <;> simp at hc
  · refine ⟨Or.inr (Or.inr (Or.inr ht)), fun hc => ?_, fun _ => hu,
      fun hc => ?_⟩
    · rw [ht] at hc
      rcases hc with hc | hc <;> simp at hc
    · rw [ht] at hc
      simp at hc

theorem startsWithAt_trimAt_of_not_double {u : String}
    (h : startsWithDoubleAt u = false) : startsWithAt (trimAt u) = false := by
  obtain ⟨d⟩ := u
  cases d with
  | nil => decide
  | cons c1 r =>
    by_cases hc : c1 = '@'
    · subst hc
      cases r with
      | nil => decide
      | cons c2 r2 =>
        have hc2 : c2 ≠ '@' := by
          intro he
          subst he
          simp [startsWithDoubleAt] at h
        simp [trimAt, trimAtL, startsWithAt, hc2]
    · simp [trimAt, trimAtL, startsWithAt, hc]

/-- C10 amended: every config accepted by `loadConfig` satisfies the kind,
id, `user_ids` and username invariants, and one leading `@` is stripped
from group/public_group usernames during load — so a loaded username has
no leading `@` whenever the configured username did not begin with `@@`
(a `@@`-prefixed raw username keeps one `@`). -/
theorem c10_load_invariants (raw c : Config) (h : loadConfig raw = some c) :
    c.sources = raw.sources.map cleanSource ∧
    (∀ s ∈ c.sources,
      (s.type = "channel" ∨ s.type = "group" ∨ s.type = "public_group" ∨
        s.type = "user") ∧
      ((s.type = "channel" ∨ s.type = "group") → s.id ≠ 0) ∧
      ((s.type = "group" ∨ s.type = "public_group" ∨ s.type = "user") →
        s.userIDs ≠ []) ∧
      (s.type = "public_group" → s.username ≠ "")) ∧
    (∀ r ∈ raw.sources,
      (r.type = "group" ∨ r.type = "public_group") →
      startsWithDoubleAt r.username = false →
      startsWithAt (cleanSource r).username = false) := by
  rw [loadConfig] at h
  by_cases hall : (raw.sources.map cleanSource).all validSource = true
  · rw [if_pos hall] at h
    obtain rfl : (⟨raw.targetChannelID, raw.sources.map cleanSource⟩ : Config) = c :=
      Option.some.inj h
    refine ⟨rfl, ?_, ?_⟩
    · intro s hs
      exact validSource_invariants (List.all_eq_true.mp hall s hs)
    · intro r hr hkind hdouble
      rw [cleanSource]
      by_cases hu : r.username = ""
      · rw [if_neg (by simp [hu])]
        rw [hu]
        decide
      · rw [if_pos (by rcases hkind with hk | hk <;> simp [hk, hu])]
        exact startsWithAt_trimAt_of_not_double hdouble
  · rw [if_neg hall] at h
    exact absurd h (by simp)

/-- C10 witness: the invariants evaluated on the `@@grp` config. -/
theorem c10_load_invariants_witness :
    loadedC10.sources = cfgC10.sources.map cleanSource ∧
    (∀ s ∈ loadedC10.sources,
      (s.type = "channel" ∨ s.type = "group" ∨ s.type = "public_group" ∨
        s.type = "user") ∧
      ((s.type = "channel" ∨ s.type = "group") → s.id ≠ 0) ∧
      ((s.type = "group" ∨ s.type = "public_group" ∨ s.type = "user") →
        s.userIDs ≠ []) ∧
      (s.type = "public_group" → s.username ≠ "")) ∧
    (∀ r ∈ cfgC10.sources,
      (r.type = "group" ∨ r.type = "public_group") →
      startsWithDoubleAt r.username = false →
      startsWithAt (cleanSource r).username = false) :=
  c10_load_invariants cfgC10 loadedC10 (by decide)

/-- C2: the forward call built for a matched rule carries the rule set's
target chat, and its topic follows the precedence rule-level
`target_topic`, else the global default topic, else none. -/
theorem c2_topic_resolution_precedence (rs : SpecRuleSet) (r : SpecRule)
    (m : Message) :
    (specDispatchForward rs r m).targetChatId = rs.targetChannelId ∧
    (∀ t : Int, r.targetTopic = some t →
      (specDispatchForward rs r m).topicId = some t) ∧
    (r.targetTopic = none →
      (specDispatchForward rs r m).topicId = rs.defaultTopic) := by
  refine ⟨rfl, ?_, ?_⟩
  · intro t ht
    simp [specDispatchForward, resolveTarget, ht]
  · intro ht
    simp [specDispatchForward, resolveTarget, ht]

/-- C2 witness: a rule with `target_topic` 2 forwards to topic 2 even
though the global default topic is 1. -/
theorem c2_topic_resolution_precedence_witness :
    (specDispatchForward rsC2 ruleC2 msgC2).targetChatId = rsC2.targetChannelId ∧
    (specDispatchForward rsC2 ruleC2 msgC2).topicId = some 2 :=
  ⟨(c2_topic_resolution_precedence rsC2 ruleC2 msgC2).1,
   (c2_topic_resolution_precedence rsC2 ruleC2 msgC2).2.1 2 rfl⟩

/-- C3: an eligible rule with a sender filter matches exactly when the
sender's id is in the filter's id set or the sender's username is
case-insensitively in the filter's username set. -/
theorem c3_sender_filter_iff (r : SpecRule) (f : SenderFilter) (m : Message)
    (hf : r.senderFilter = some f) (he : specEligible r m = true) :
    (specRuleMatches r m = true ↔
      m.fromID ∈ f.userIds ∨
        ∃ u ∈ f.usernames, lowerStr u = lowerStr m.fromUsername) := by
  simp [specRuleMatches, hf, he, eqFold, List.any_eq_true]

/-- C3 witness: sender 99 with username `alice` passes the filter holding
username `Alice` via the case-insensitive username set. -/
theorem c3_sender_filter_iff_witness :
    specRuleMatches ruleC3 msgC3 = true :=
  (c3_sender_filter_iff ruleC3 fltC3 msgC3 rfl (by decide)).mpr
    (Or.inr ⟨"Alice", by decide, by decide⟩)

end TeleForward
